import Mathlib

/-
Verification development for the Telegram crypto-exchange simulation.

The ledger engine of the repository lives in exchange/services.py
(simulate_and_execute_swap, simulate_and_execute_buy_sell, deposit_usd),
the wallet store in wallet/utils.py (get_user_wallet,
get_user_transactions) and the data model in wallet/models.py
(Wallet, Transaction with its overridden save method) and
exchange/models.py (Coin).

Embedding conventions:
* Python Decimal values are modelled exactly as rationals.  Every
  arithmetic step of the source (sums, differences, products,
  quotients of Decimals) is translated to the corresponding exact
  rational operation.
* wallet.balance is a JSON object whose values the source always
  writes through str(...) and reads through Decimal(str(...)); it is
  modelled as an association list from currency id to the rational
  value of the stored string, preserving insertion order the way a
  Python dict does.
* The database is modelled explicitly: the list of existing user ids,
  the Coin catalog rows (id, is_active), the per-user wallets and the
  append-only Transaction ledger with a logical creation clock.
* get_coin_price is imported by exchange/services.py from
  exchange/utils.py but is not defined in the available sources; it is
  the PriceOracle collaborator of the spec and is modelled as an
  injected map from currency id to an optional USD price.
* Human-readable message strings (the message field of
  TransactionResult, transaction_details) are not modelled; no claim
  depends on them.
-/

namespace CryptoSim

/-- A Python value passed in an amount argument of the public API:
either a number, Decimal, float or int, modelled exactly as a
rational, or a string.  Strings fail the isinstance number check of
the source. -/
inductive PyVal where
  | num (q : ℚ)
  | strv (s : String)
deriving Repr, DecidableEq

/-- Python truthiness of a PyVal: a number is falsy exactly at 0, a
string exactly when empty.  Models the all([...]) argument presence
checks of the source. -/
def PyVal.truthy : PyVal → Bool
  | .num q => decide (q ≠ 0)
  | .strv s => decide (s ≠ "")

/-- Models isinstance(x, (Decimal, float, int)). -/
def PyVal.isNumber : PyVal → Bool
  | .num _ => true
  | .strv _ => false

/-- Lookup in a string-keyed association list, first match wins. -/
def alookup {α : Type} : List (String × α) → String → Option α
  | [], _ => none
  | (k, v) :: rest, key => if key = k then some v else alookup rest key

/-- Update of a string-keyed association list: overwrite the first
binding in place if the key is present, append the new binding
otherwise.  This is exactly how assignment to a Python dict key
behaves with respect to insertion order. -/
def alset {α : Type} : List (String × α) → String → α → List (String × α)
  | [], key, v => [(key, v)]
  | (k, w) :: rest, key, v =>
      if k = key then (key, v) :: rest else (k, w) :: alset rest key v

/-- A wallet balance map: currency id to amount. -/
abbrev Balance := List (String × ℚ)

/-- Models Decimal(str(wallet.balance.get(c, 0))): a missing key reads
as 0. -/
def bget (b : Balance) (c : String) : ℚ := (alookup b c).getD 0

/-- Models wallet.balance[c] = str(v). -/
def bset (b : Balance) (c : String) (v : ℚ) : Balance := alset b c v

/-- A Transaction ledger row as created by the engine, wallet/models.py.
The user and wallet foreign keys are kept on the stored row
(StoredTxn below); free-text details and timestamps auto-fields are
not part of the row model. -/
structure Txn where
  base_currency : String
  base_amount : ℚ
  destination_currency : String
  destination_amount : ℚ
  rate : ℚ
  swap_origin_usd_rate : Option ℚ := none
  swap_destination_usd_rate : Option ℚ := none
  transaction_type : String
  status : String
deriving Repr, DecidableEq

/-- The overridden save method of the Transaction model,
wallet/models.py lines 101-105: when base_amount and rate are both
truthy (nonzero Decimals), destination_amount is overwritten with
base_amount * rate before the row is stored.  Transaction.objects.create
invokes this method. -/
def Txn.save (t : Txn) : Txn :=
  if t.base_amount ≠ 0 ∧ t.rate ≠ 0 then
    { t with destination_amount := t.base_amount * t.rate }
  else t

/-- A committed ledger row: owning user, logical creation time
(strictly increasing, larger is newer) and the row data. -/
structure StoredTxn where
  user_id : String
  timestamp : Nat
  txn : Txn
deriving Repr, DecidableEq

/-- Modelled from the spec: get_coin_price is imported by
exchange/services.py from exchange/utils.py but is not defined in the
available sources.  Per the spec it is the PriceOracle collaborator,
GetUSDPrice(id) returning a point-in-time USD quote or failing, so it
is modelled as an injected map from currency id to an optional
price. -/
abbrev PriceOracle := String → Option ℚ

/-- The mutable database state: existing user ids, the Coin catalog
rows (id, is_active), the per-user wallets and the append-only
Transaction ledger with its creation clock. -/
structure DB where
  users : List String
  coins : List (String × Bool)
  wallets : List (String × Balance)
  ledger : List StoredTxn
  clock : Nat
deriving Repr, DecidableEq

/-- Modelled from the spec: the oracle lookup used by the engine. -/
def get_coin_price (oracle : PriceOracle) (cid : String) : Option ℚ :=
  oracle cid

/-- Python falsiness applied to a price: the source guards prices with
`if not price`, which treats both a missing price (None) and a zero
Decimal as unavailable. -/
def truthyPrice (p : Option ℚ) : Option ℚ :=
  match p with
  | some q => if q = 0 then none else some q
  | none => none

/-- Wallet.objects.get_or_create for an existing user: returns the
current balance map, creating and committing an empty one if the user
has no wallet row yet (wallet/utils.py lines 126-129). -/
def ensureWallet (db : DB) (uid : String) : Balance × DB :=
  match alookup db.wallets uid with
  | some b => (b, db)
  | none => ([], { db with wallets := alset db.wallets uid [] })

/-- Exceptions that can escape the wallet store: Http404 from
get_object_or_404, and the Django FieldError raised when a queryset
filter references a field the model does not define. -/
inductive PyErr where
  | http404
  | fieldError
deriving Repr, DecidableEq

/-- get_user_wallet, wallet/utils.py lines 108-130: 404 if the user
does not exist, otherwise get-or-create the wallet with an empty
balance.  The state component of the result records the committed
creation, if any. -/
def get_user_wallet (db : DB) (uid : String) : Except PyErr Balance × DB :=
  if uid ∈ db.users then
    (Except.ok (ensureWallet db uid).1, (ensureWallet db uid).2)
  else (Except.error PyErr.http404, db)

/-- A value placed in the final_balances map of a result: either a
Python Decimal of the given value, or the Python string str(d) of a
Decimal of the given value.  The source mixes both. -/
inductive BVal where
  | dec (q : ℚ)
  | strv (q : ℚ)
deriving Repr, DecidableEq

/-- The TransactionResult dataclass of exchange/services.py; the
human-readable message field is not modelled. -/
structure TransactionResult where
  success : Bool
  transaction_record : Option Txn
  status : String
  final_balances : Option (List (String × BVal)) := none
  error_type : Option String := none
deriving Repr, DecidableEq

/-- Python str.lower() as used on currency ids and transaction sides:
each character mapped to its lowercase form (the identifiers involved
are ASCII). -/
def pyLower (s : String) : String := String.mk (s.data.map Char.toLower)

/-- wallet.save() followed by Transaction.objects.create inside the
atomic block: commit the new balance map and append the ledger row. -/
def commit (db : DB) (uid : String) (b : Balance) (t : Txn) : DB :=
  { db with
    wallets := alset db.wallets uid b
    ledger := db.ledger ++ [⟨uid, db.clock, t⟩]
    clock := db.clock + 1 }

/-- simulate_and_execute_swap, exchange/services.py lines 25-180,
translated branch by branch in source order: presence check,
isinstance check, positivity check, self-pair check, active-coin
membership of both legs, price availability, then inside the atomic
block the user lookup (a missing user raises Http404, caught by the
outer except as status error), wallet get-or-create, balance check,
balance mutation and ledger append through Transaction save. -/
def simulate_and_execute_swap (oracle : PriceOracle) (db : DB)
    (user_id origin_currency_id destination_currency_id : String)
    (origin_amount : PyVal) : TransactionResult × DB :=
  if user_id = "" ∨ origin_currency_id = "" ∨ destination_currency_id = "" ∨
      origin_amount.truthy = false then
    ({ success := false, transaction_record := none, status := "invalid_input",
       error_type := some "ValidationError" }, db)
  else
    match origin_amount with
    | .strv _ =>
        ({ success := false, transaction_record := none, status := "invalid_input",
           error_type := some "ValidationError" }, db)
    | .num a =>
      if a ≤ 0 then
        ({ success := false, transaction_record := none, status := "invalid_input",
           error_type := some "ValidationError" }, db)
      else if origin_currency_id = destination_currency_id then
        ({ success := false, transaction_record := none, status := "invalid_pair",
           error_type := some "ValidationError" }, db)
      else if ¬ alookup db.coins origin_currency_id = some true then
        ({ success := false, transaction_record := none,
           status := "unsupported_currency",
           error_type := some "ValidationError" }, db)
      else if ¬ alookup db.coins destination_currency_id = some true then
        ({ success := false, transaction_record := none,
           status := "unsupported_currency",
           error_type := some "ValidationError" }, db)
      else
        match truthyPrice (get_coin_price oracle origin_currency_id),
              truthyPrice (get_coin_price oracle destination_currency_id) with
        | some origin_usd_price, some destination_usd_price =>
          let total_swap_value := a * origin_usd_price
          let destination_amount := total_swap_value / destination_usd_price
          let rate := destination_amount / a
          if user_id ∈ db.users then
            let wdb := ensureWallet db user_id
            let current_destination_balance := bget wdb.1 destination_currency_id
            let current_origin_balance := bget wdb.1 origin_currency_id
            if current_origin_balance < a then
              ({ success := false, transaction_record := none,
                 status := "insufficient_funds",
                 error_type := some "InsufficientFundsError" }, wdb.2)
            else
              let b2 := bset (bset wdb.1 origin_currency_id
                  (current_origin_balance - a))
                  destination_currency_id
                  (current_destination_balance + destination_amount)
              let t := Txn.save
                { base_currency := origin_currency_id, base_amount := a,
                  destination_currency := destination_currency_id,
                  destination_amount := destination_amount, rate := rate,
                  swap_origin_usd_rate := some origin_usd_price,
                  swap_destination_usd_rate := some destination_usd_price,
                  transaction_type := "swap", status := "completed" }
              ({ success := true, transaction_record := some t,
                 status := "completed",
                 final_balances := some
                   [(origin_currency_id,
                     BVal.strv (current_origin_balance - a)),
                    (destination_currency_id,
                     BVal.strv (current_destination_balance + destination_amount))] },
               commit wdb.2 user_id b2 t)
          else
            ({ success := false, transaction_record := none, status := "error",
               error_type := some "Http404" }, db)
        | _, _ =>
          ({ success := false, transaction_record := none,
             status := "price_unavailable",
             error_type := some "ValidationError" }, db)

/-- simulate_and_execute_buy_sell, exchange/services.py lines 183-365,
translated branch by branch in source order: presence check,
isinstance check, positivity check, side check after lowercasing,
Coin.objects.get on the lowercased id (note: no is_active filter; any
catalog row is accepted), price availability, user lookup (missing
user raises Http404, caught by the outer except as status error),
wallet get-or-create, then the buy or sell balance check, ledger
append through Transaction save and balance commit. -/
def simulate_and_execute_buy_sell (oracle : PriceOracle) (db : DB)
    (user_id cryptocurrency_id : String) (amount : PyVal)
    (transaction_type : String) : TransactionResult × DB :=
  if user_id = "" ∨ cryptocurrency_id = "" ∨ amount.truthy = false ∨
      transaction_type = "" then
    ({ success := false, transaction_record := none, status := "invalid_input",
       error_type := some "ValidationError" }, db)
  else
    match amount with
    | .strv _ =>
        ({ success := false, transaction_record := none, status := "invalid_input",
           error_type := some "ValidationError" }, db)
    | .num a =>
      if a ≤ 0 then
        ({ success := false, transaction_record := none, status := "invalid_input",
           error_type := some "ValidationError" }, db)
      else if ¬ ((pyLower transaction_type) = "buy" ∨
          (pyLower transaction_type) = "sell") then
        ({ success := false, transaction_record := none, status := "invalid_input",
           error_type := some "ValidationError" }, db)
      else
        match alookup db.coins (pyLower cryptocurrency_id) with
        | none =>
          ({ success := false, transaction_record := none,
             status := "unsupported_currency",
             error_type := some "ValidationError" }, db)
        | some _ =>
          match truthyPrice (get_coin_price oracle (pyLower cryptocurrency_id)) with
          | none =>
            ({ success := false, transaction_record := none,
               status := "price_unavailable",
               error_type := some "ValidationError" }, db)
          | some price =>
            let usd_value := a * price
            if user_id ∈ db.users then
              let wdb := ensureWallet db user_id
              let current_usd_balance := bget wdb.1 "usd"
              let current_crypto_balance := bget wdb.1 (pyLower cryptocurrency_id)
              if (pyLower transaction_type) = "buy" then
                if current_usd_balance < usd_value then
                  ({ success := false, transaction_record := none,
                     status := "insufficient_funds",
                     final_balances := some
                       [("usd", BVal.dec current_usd_balance),
                        ((pyLower cryptocurrency_id),
                         BVal.dec current_crypto_balance)],
                     error_type := some "InsufficientFundsError" }, wdb.2)
                else
                  let new_usd_balance := current_usd_balance - usd_value
                  let new_crypto_balance := current_crypto_balance + a
                  let t := Txn.save
                    { base_currency := "usd", base_amount := usd_value,
                      destination_currency := (pyLower cryptocurrency_id),
                      destination_amount := a, rate := price,
                      transaction_type := "buy", status := "completed" }
                  ({ success := true, transaction_record := some t,
                     status := "completed",
                     final_balances := some
                       [("usd", BVal.dec new_usd_balance),
                        ((pyLower cryptocurrency_id),
                         BVal.dec new_crypto_balance)] },
                   commit wdb.2 user_id
                     (bset (bset wdb.1 "usd" new_usd_balance)
                       (pyLower cryptocurrency_id) new_crypto_balance) t)
              else
                if current_crypto_balance < a then
                  ({ success := false, transaction_record := none,
                     status := "insufficient_funds",
                     final_balances := some
                       [("usd", BVal.dec current_usd_balance),
                        ((pyLower cryptocurrency_id),
                         BVal.dec current_crypto_balance)],
                     error_type := some "InsufficientFundsError" }, wdb.2)
                else
                  let new_usd_balance := current_usd_balance + usd_value
                  let new_crypto_balance := current_crypto_balance - a
                  let t := Txn.save
                    { base_currency := (pyLower cryptocurrency_id),
                      base_amount := a, destination_currency := "usd",
                      destination_amount := usd_value, rate := price,
                      transaction_type := "sell", status := "completed" }
                  ({ success := true, transaction_record := some t,
                     status := "completed",
                     final_balances := some
                       [("usd", BVal.dec new_usd_balance),
                        ((pyLower cryptocurrency_id),
                         BVal.dec new_crypto_balance)] },
                   commit wdb.2 user_id
                     (bset (bset wdb.1 "usd" new_usd_balance)
                       (pyLower cryptocurrency_id) new_crypto_balance) t)
            else
              ({ success := false, transaction_record := none, status := "error",
                 error_type := some "Http404" }, db)

/-- deposit_usd, exchange/services.py lines 368-434: presence check,
isinstance check, positivity check, then get_user_wallet (a missing
user raises Http404, caught as not_found with no state change),
increment of the usd balance and commit.  No Transaction row is ever
created.  The success result carries status deposit_successful and a
final_balances map with the single uppercase key USD bound to the
string of the new balance. -/
def deposit_usd (db : DB) (user_id : String) (amount : PyVal) :
    TransactionResult × DB :=
  if user_id = "" ∨ amount.truthy = false then
    ({ success := false, transaction_record := none, status := "invalid_input",
       error_type := some "ValidationError" }, db)
  else
    match amount with
    | .strv _ =>
        ({ success := false, transaction_record := none, status := "invalid_input",
           error_type := some "ValidationError" }, db)
    | .num a =>
      if a ≤ 0 then
        ({ success := false, transaction_record := none, status := "invalid_input",
           error_type := some "ValidationError" }, db)
      else if user_id ∈ db.users then
        let wdb := ensureWallet db user_id
        let new_balance := bget wdb.1 "usd" + a
        let ws := alset wdb.2.wallets user_id (bset wdb.1 "usd" new_balance)
        ({ success := true, transaction_record := none,
           status := "deposit_successful",
           final_balances := some [("USD", BVal.strv new_balance)] },
         { wdb.2 with wallets := ws })
      else
        ({ success := false, transaction_record := none, status := "not_found",
           error_type := some "DoesNotExistError" }, db)

/-- Insert into a list sorted by strictly descending timestamp. -/
def insertDesc (t : StoredTxn) : List StoredTxn → List StoredTxn
  | [] => [t]
  | s :: rest =>
      if s.timestamp ≤ t.timestamp then t :: s :: rest
      else s :: insertDesc t rest

/-- order_by minus-timestamp: newest first. -/
def sortByTimestampDesc (l : List StoredTxn) : List StoredTxn :=
  l.foldr insertDesc []

/-- get_user_transactions, wallet/utils.py lines 133-177: 404 if the
user is missing, else the transactions of the user ordered newest
first, then the optional type filter, then the optional currency
filter, then offset and limit slicing.  The currency filter of the
source is Q(base_currency=currency) | Q(to_currency=currency); the
Transaction model defines no field named to_currency (the field is
destination_currency), so Django raises FieldError when that filter is
applied. -/
def get_user_transactions (db : DB) (uid : String)
    (transaction_type currency : Option String)
    (limit offset : Option Nat) : Except PyErr (List StoredTxn) :=
  if uid ∈ db.users then
    let txs := sortByTimestampDesc (db.ledger.filter (fun t => t.user_id == uid))
    let txs := match transaction_type with
      | some tt => txs.filter (fun t => t.txn.transaction_type == tt)
      | none => txs
    match currency with
    | some _ => Except.error PyErr.fieldError
    | none =>
      let txs := match offset with
        | some o => txs.drop o
        | none => txs
      let txs := match limit with
        | some l => txs.take l
        | none => txs
      Except.ok txs
  else Except.error PyErr.http404

/-- One operation of the public mutating API. -/
inductive Op where
  | deposit (uid : String) (amount : PyVal)
  | trade (uid cid : String) (amount : PyVal) (ttype : String)
  | swap (uid origin dest : String) (amount : PyVal)
deriving Repr, DecidableEq

/-- The state transition of one operation. -/
def step (oracle : PriceOracle) (db : DB) : Op → DB
  | .deposit uid a => (deposit_usd db uid a).2
  | .trade uid cid a tt => (simulate_and_execute_buy_sell oracle db uid cid a tt).2
  | .swap uid o d a => (simulate_and_execute_swap oracle db uid o d a).2

/-- Run a sequence of operations. -/
def run (oracle : PriceOracle) (db : DB) (ops : List Op) : DB :=
  ops.foldl (step oracle) db

/-- The balance of a currency in the wallet of a user inside a wallets
table: a missing wallet or a missing key reads as 0. -/
def wbal (ws : List (String × Balance)) (uid c : String) : ℚ :=
  bget ((alookup ws uid).getD []) c

/-- The observable balance of a currency for a user. -/
def walletBal (db : DB) (uid c : String) : ℚ := wbal db.wallets uid c

/-- Every balance of every wallet is nonnegative. -/
def NonnegState (db : DB) : Prop := ∀ uid c, 0 ≤ walletBal db uid c

/-- Every price the oracle can supply is positive. -/
def PricesPos (oracle : PriceOracle) : Prop :=
  ∀ c q, oracle c = some q → 0 < q

end CryptoSim

namespace CryptoSim

theorem alookup_alset {α : Type} (l : List (String × α)) (k : String) (v : α)
    (k2 : String) :
    alookup (alset l k v) k2 = if k2 = k then some v else alookup l k2 := by
  induction l with
  | nil => simp [alset, alookup]
  | cons p rest ih =>
    obtain ⟨pk, pv⟩ := p
    by_cases h : pk = k
    · subst h
      simp only [alset, if_pos rfl, alookup]
      by_cases h2 : k2 = pk <;> simp [h2, alookup]
    · simp only [alset, if_neg h, alookup]
      by_cases h2 : k2 = pk
      · have hne : k2 ≠ k := fun hc => h (h2.symm.trans hc)
        simp [alookup, h2, hne, h]
      · simp [alookup, h2, ih]

theorem bget_bset (b : Balance) (c : String) (v : ℚ) (c2 : String) :
    bget (bset b c v) c2 = if c2 = c then v else bget b c2 := by
  simp only [bget, bset, alookup_alset]
  split <;> simp [bget]

theorem wbal_alset (ws : List (String × Balance)) (uid : String) (nb : Balance)
    (u c : String) :
    wbal (alset ws uid nb) u c = if u = uid then bget nb c else wbal ws u c := by
  simp only [wbal, alookup_alset]
  split <;> simp [bget]

theorem ensureWallet_fst (db : DB) (uid c : String) :
    bget (ensureWallet db uid).1 c = walletBal db uid c := by
  unfold ensureWallet walletBal wbal
  cases h : alookup db.wallets uid <;> simp [h, bget, alookup]

theorem ensureWallet_wbal (db : DB) (uid u c : String) :
    walletBal (ensureWallet db uid).2 u c = walletBal db u c := by
  unfold ensureWallet walletBal wbal
  cases h : alookup db.wallets uid with
  | some b => simp
  | none =>
    simp only [alookup_alset]
    by_cases h2 : u = uid
    · subst h2; simp [h, bget, alookup]
    · simp [h2]

theorem ensureWallet_users (db : DB) (uid : String) :
    (ensureWallet db uid).2.users = db.users := by
  unfold ensureWallet
  cases alookup db.wallets uid <;> rfl

theorem ensureWallet_coins (db : DB) (uid : String) :
    (ensureWallet db uid).2.coins = db.coins := by
  unfold ensureWallet
  cases alookup db.wallets uid <;> rfl

theorem ensureWallet_ledger (db : DB) (uid : String) :
    (ensureWallet db uid).2.ledger = db.ledger := by
  unfold ensureWallet
  cases alookup db.wallets uid <;> rfl

theorem ensureWallet_clock (db : DB) (uid : String) :
    (ensureWallet db uid).2.clock = db.clock := by
  unfold ensureWallet
  cases alookup db.wallets uid <;> rfl

theorem ensure_nonneg (db : DB) (uid : String) (h : NonnegState db) :
    NonnegState (ensureWallet db uid).2 := by
  intro u c
  rw [ensureWallet_wbal]
  exact h u c

theorem nonneg_update (db db2 : DB) (uid : String) (nb : Balance)
    (hw : db2.wallets = alset db.wallets uid nb)
    (h : NonnegState db) (hb : ∀ c, 0 ≤ bget nb c) : NonnegState db2 := by
  intro u c
  unfold walletBal
  rw [hw, wbal_alset]
  split
  · exact hb c
  · exact h u c

theorem commit_wallets (db : DB) (uid : String) (b : Balance) (t : Txn) :
    (commit db uid b t).wallets = alset db.wallets uid b := rfl

theorem commit_ledger (db : DB) (uid : String) (b : Balance) (t : Txn) :
    (commit db uid b t).ledger = db.ledger ++ [⟨uid, db.clock, t⟩] := rfl

theorem truthyPrice_eq (p : Option ℚ) (q : ℚ) (h : truthyPrice p = some q) :
    p = some q := by
  cases p with
  | none => simp [truthyPrice] at h
  | some x =>
    simp only [truthyPrice] at h
    by_cases hx : x = 0
    · simp [hx] at h
    · simp only [if_neg hx, Option.some.injEq] at h
      rw [h]

end CryptoSim

namespace CryptoSim

theorem deposit_nonneg (db : DB) (uid : String) (a : PyVal)
    (h : NonnegState db) : NonnegState (deposit_usd db uid a).2 := by
  unfold deposit_usd
  split
  · exact h
  · cases a with
    | strv s => exact h
    | num q =>
      simp only []
      split
      · exact h
      · split
        · rename_i hq hmem
          refine nonneg_update (ensureWallet db uid).2 _ uid _ rfl
            (ensure_nonneg db uid h) ?_
          intro c
          rw [bget_bset]
          split
          · have h1 : (0:ℚ) ≤ bget (ensureWallet db uid).1 "usd" := by
              rw [ensureWallet_fst]; exact h uid "usd"
            have hq2 : (0:ℚ) < q := lt_of_not_le hq
            linarith
          · rw [ensureWallet_fst]; exact h uid c
        · exact h

theorem buy_sell_nonneg (oracle : PriceOracle) (db : DB)
    (uid cid : String) (a : PyVal) (tt : String)
    (h : NonnegState db) (hp : PricesPos oracle) :
    NonnegState (simulate_and_execute_buy_sell oracle db uid cid a tt).2 := by
  unfold simulate_and_execute_buy_sell
  split
  · exact h
  · cases a with
    | strv s => exact h
    | num q =>
      simp only []
      split
      · exact h
      · rename_i hq
        split
        · exact h
        · split
          · exact h
          · rename_i coinrow hcoin
            split
            · exact h
            · rename_i price hprice
              split
              · rename_i hmem
                split
                · split
                  · exact ensure_nonneg db uid h
                  · rename_i hins
                    refine nonneg_update (ensureWallet db uid).2 _ uid _
                      (commit_wallets _ _ _ _) (ensure_nonneg db uid h) ?_
                    intro c
                    rw [bget_bset, bget_bset]
                    split
                    · have h1 : (0:ℚ) ≤ bget (ensureWallet db uid).1 (pyLower cid) := by
                        rw [ensureWallet_fst]; exact h uid _
                      have hq2 : (0:ℚ) < q := lt_of_not_le hq
                      linarith
                    · split
                      · have h2 := not_lt.mp hins
                        linarith
                      · rw [ensureWallet_fst]; exact h uid c
                · split
                  · exact ensure_nonneg db uid h
                  · rename_i hins
                    refine nonneg_update (ensureWallet db uid).2 _ uid _
                      (commit_wallets _ _ _ _) (ensure_nonneg db uid h) ?_
                    intro c
                    rw [bget_bset, bget_bset]
                    split
                    · have h2 := not_lt.mp hins
                      linarith
                    · split
                      · have h1 : (0:ℚ) ≤ bget (ensureWallet db uid).1 "usd" := by
                          rw [ensureWallet_fst]; exact h uid _
                        have hq2 : (0:ℚ) < q := lt_of_not_le hq
                        have hpp : (0:ℚ) < price :=
                          hp _ _ (truthyPrice_eq _ _ hprice)
                        have h3 : (0:ℚ) < q * price := mul_pos hq2 hpp
                        linarith
                      · rw [ensureWallet_fst]; exact h uid c
              · exact h

theorem swap_nonneg (oracle : PriceOracle) (db : DB)
    (uid o d : String) (a : PyVal)
    (h : NonnegState db) (hp : PricesPos oracle) :
    NonnegState (simulate_and_execute_swap oracle db uid o d a).2 := by
  unfold simulate_and_execute_swap
  split
  · exact h
  · cases a with
    | strv s => exact h
    | num q =>
      simp only []
      split
      · exact h
      · rename_i hq
        split
        · exact h
        · split
          · exact h
          · split
            · exact h
            · split
              · rename_i po pd hpo hpd
                split
                · rename_i hmem
                  split
                  · exact ensure_nonneg db uid h
                  · rename_i hins
                    refine nonneg_update (ensureWallet db uid).2 _ uid _
                      (commit_wallets _ _ _ _) (ensure_nonneg db uid h) ?_
                    intro c
                    rw [bget_bset, bget_bset]
                    split
                    · have h1 : (0:ℚ) ≤ bget (ensureWallet db uid).1 d := by
                        rw [ensureWallet_fst]; exact h uid _
                      have hq2 : (0:ℚ) < q := lt_of_not_le hq
                      have hpo2 : (0:ℚ) < po :=
                        hp _ _ (truthyPrice_eq _ _ hpo)
                      have hpd2 : (0:ℚ) < pd :=
                        hp _ _ (truthyPrice_eq _ _ hpd)
                      have h3 : (0:ℚ) < q * po / pd :=
                        div_pos (mul_pos hq2 hpo2) hpd2
                      linarith
                    · split
                      · have h2 := not_lt.mp hins
                        linarith
                      · rw [ensureWallet_fst]; exact h uid c
                · exact h
              · exact h

theorem step_nonneg (oracle : PriceOracle) (db : DB) (op : Op)
    (h : NonnegState db) (hp : PricesPos oracle) :
    NonnegState (step oracle db op) := by
  cases op with
  | deposit uid a => exact deposit_nonneg db uid a h
  | trade uid cid a tt => exact buy_sell_nonneg oracle db uid cid a tt h hp
  | swap uid o d a => exact swap_nonneg oracle db uid o d a h hp

/-- C1: For every sequence of deposit, trade (buy or sell) and swap
operations starting from a state whose wallet balances are all
nonnegative, and given that every price the oracle can supply is
positive, every balance of every wallet (a missing key counting as 0)
is nonnegative after running the sequence.  Since the statement is
universally quantified over the operation list, it applies to every
prefix of a sequence, hence the balances are nonnegative after each
operation. -/
theorem operations_preserve_nonneg (oracle : PriceOracle) (db : DB)
    (ops : List Op) (h : NonnegState db) (hp : PricesPos oracle) :
    NonnegState (run oracle db ops) := by
  induction ops generalizing db with
  | nil => exact h
  | cons op rest ih =>
    simp only [run, List.foldl_cons]
    exact ih (step oracle db op) (step_nonneg oracle db op h hp)

/-- A concrete oracle for witnesses: ethereum 300, bitcoin 60000,
dogecoin 1 (all in USD), everything else unquoted. -/
def oracleT : PriceOracle := fun c =>
  if c = "ethereum" then some 300
  else if c = "bitcoin" then some 60000
  else if c = "dogecoin" then some 1
  else none

/-- A concrete database for witnesses: one user 42 whose wallet holds
1000 usd; ethereum and bitcoin are active catalog coins while dogecoin
is present but inactive. -/
def dbT : DB :=
  { users := ["42"],
    coins := [("ethereum", true), ("bitcoin", true), ("dogecoin", false)],
    wallets := [("42", [("usd", 1000)])], ledger := [], clock := 0 }

theorem oracleT_pos : PricesPos oracleT := by
  intro c q h
  unfold oracleT at h
  split_ifs at h <;> simp_all <;> norm_num [← h]

theorem dbT_nonneg : NonnegState dbT := by
  intro uid c
  unfold walletBal wbal dbT
  simp only [alookup]
  by_cases h : uid = "42"
  · simp only [if_pos h]
    by_cases h2 : c = "usd" <;> simp [bget, alookup, h2]
  · simp [if_neg h, bget, alookup]

/-- Witness for C1: a concrete deposit, buy, sell and swap sequence on
the concrete state, with both hypotheses discharged. -/
theorem operations_preserve_nonneg_witness :
    NonnegState dbT ∧ PricesPos oracleT ∧
      NonnegState (run oracleT dbT
        [Op.deposit "42" (.num 500), Op.trade "42" "ethereum" (.num 2) "buy",
         Op.trade "42" "ethereum" (.num 1) "sell",
         Op.swap "42" "ethereum" "bitcoin" (.num 1)]) :=
  ⟨dbT_nonneg, oracleT_pos,
    operations_preserve_nonneg oracleT dbT _ dbT_nonneg oracleT_pos⟩

end CryptoSim

namespace CryptoSim
theorem buy_sell_fail_frame (oracle : PriceOracle) (db : DB)
    (uid cid : String) (a : PyVal) (tt : String)
    (r : TransactionResult) (db2 : DB)
    (heq : simulate_and_execute_buy_sell oracle db uid cid a tt = (r, db2))
    (hs : r.success = false) :
    db2.ledger = db.ledger ∧ ∀ u c, walletBal db2 u c = walletBal db u c := by
  unfold simulate_and_execute_buy_sell at heq
  split at heq
  · cases heq
    exact ⟨rfl, fun u c => rfl⟩
  · cases a with
    | strv s =>
      cases heq
      exact ⟨rfl, fun u c => rfl⟩
    | num q =>
      simp only [] at heq
      split at heq
      · cases heq
        exact ⟨rfl, fun u c => rfl⟩
      · split at heq
        · cases heq
          exact ⟨rfl, fun u c => rfl⟩
        · split at heq
          · cases heq
            exact ⟨rfl, fun u c => rfl⟩
          · split at heq
            · cases heq
              exact ⟨rfl, fun u c => rfl⟩
            · split at heq
              · split at heq
                · split at heq
                  · cases heq
                    exact ⟨ensureWallet_ledger db uid,
                      fun u c => ensureWallet_wbal db uid u c⟩
                  · cases heq
                    simp at hs
                · split at heq
                  · cases heq
                    exact ⟨ensureWallet_ledger db uid,
                      fun u c => ensureWallet_wbal db uid u c⟩
                  · cases heq
                    simp at hs
              · cases heq
                exact ⟨rfl, fun u c => rfl⟩

theorem swap_fail_frame (oracle : PriceOracle) (db : DB)
    (uid o d : String) (a : PyVal)
    (r : TransactionResult) (db2 : DB)
    (heq : simulate_and_execute_swap oracle db uid o d a = (r, db2))
    (hs : r.success = false) :
    db2.ledger = db.ledger ∧ ∀ u c, walletBal db2 u c = walletBal db u c := by
  unfold simulate_and_execute_swap at heq
  split at heq
  · cases heq
    exact ⟨rfl, fun u c => rfl⟩
  · cases a with
    | strv s =>
      cases heq
      exact ⟨rfl, fun u c => rfl⟩
    | num q =>
      simp only [] at heq
      split at heq
      · cases heq
        exact ⟨rfl, fun u c => rfl⟩
      · split at heq
        · cases heq
          exact ⟨rfl, fun u c => rfl⟩
        · split at heq
          · cases heq
            exact ⟨rfl, fun u c => rfl⟩
          · split at heq
            · cases heq
              exact ⟨rfl, fun u c => rfl⟩
            · split at heq
              · split at heq
                · split at heq
                  · cases heq
                    exact ⟨ensureWallet_ledger db uid,
                      fun u c => ensureWallet_wbal db uid u c⟩
                  · cases heq
                    simp at hs
                · cases heq
                  exact ⟨rfl, fun u c => rfl⟩
              · cases heq
                exact ⟨rfl, fun u c => rfl⟩

/-- C2: For every Trade (buy or sell) or Swap call whose result has
success false (any failure status), the Transaction ledger is
unchanged and every observable wallet balance (missing wallet or key
reading as 0) is exactly what it was before the call. -/
theorem failed_calls_have_no_effects (oracle : PriceOracle) (db : DB)
    (uid cid tt o d : String) (a : PyVal) :
    ((simulate_and_execute_buy_sell oracle db uid cid a tt).1.success = false →
      (simulate_and_execute_buy_sell oracle db uid cid a tt).2.ledger = db.ledger ∧
      ∀ u c, walletBal (simulate_and_execute_buy_sell oracle db uid cid a tt).2 u c
        = walletBal db u c)
    ∧ ((simulate_and_execute_swap oracle db uid o d a).1.success = false →
      (simulate_and_execute_swap oracle db uid o d a).2.ledger = db.ledger ∧
      ∀ u c, walletBal (simulate_and_execute_swap oracle db uid o d a).2 u c
        = walletBal db u c) :=
  ⟨fun hs => buy_sell_fail_frame oracle db uid cid a tt _ _ rfl hs,
   fun hs => swap_fail_frame oracle db uid o d a _ _ rfl hs⟩

/-- Witness for C2: a concrete failing trade (insufficient funds) and
a concrete failing swap (self pair) on the concrete state leave the
ledger and all balances unchanged. -/
theorem failed_calls_have_no_effects_witness :
    ((simulate_and_execute_buy_sell oracleT dbT "42" "ethereum" (.num 50) "buy").1.success
        = false ∧
      (simulate_and_execute_buy_sell oracleT dbT "42" "ethereum" (.num 50) "buy").2.ledger
        = dbT.ledger ∧
      ∀ u c, walletBal
        (simulate_and_execute_buy_sell oracleT dbT "42" "ethereum" (.num 50) "buy").2 u c
        = walletBal dbT u c)
    ∧ ((simulate_and_execute_swap oracleT dbT "42" "bitcoin" "bitcoin" (.num 1)).1.success
        = false ∧
      (simulate_and_execute_swap oracleT dbT "42" "bitcoin" "bitcoin" (.num 1)).2.ledger
        = dbT.ledger ∧
      ∀ u c, walletBal
        (simulate_and_execute_swap oracleT dbT "42" "bitcoin" "bitcoin" (.num 1)).2 u c
        = walletBal dbT u c) := by
  have hb : (simulate_and_execute_buy_sell oracleT dbT "42" "ethereum"
      (.num 50) "buy").1.success = false := by
    simp +decide [simulate_and_execute_buy_sell, PyVal.truthy, pyLower,
      get_coin_price, truthyPrice, ensureWallet, alookup, bget, oracleT, dbT]
    norm_num
  have hw : (simulate_and_execute_swap oracleT dbT "42" "bitcoin" "bitcoin"
      (.num 1)).1.success = false := by
    simp +decide [simulate_and_execute_swap, PyVal.truthy]
  have h1 := (failed_calls_have_no_effects oracleT dbT "42" "ethereum" "buy"
    "bitcoin" "bitcoin" (.num 50)).1 hb
  have h2 := (failed_calls_have_no_effects oracleT dbT "42" "ethereum" "buy"
    "bitcoin" "bitcoin" (.num 1)).2 hw
  exact ⟨⟨hb, h1.1, h1.2⟩, ⟨hw, h2.1, h2.2⟩⟩

end CryptoSim

namespace CryptoSim

/-- C3: the concrete scenario of the claim, evaluated on the code.  A
user with a 1000 usd wallet buys 2 ethereum at oracle price 300: the
call succeeds and the balances become usd 400, ethereum 2 as the claim
says, and exactly one Transaction row is created with
base_currency usd, base_amount 600, destination_currency ethereum and
rate 300; but the stored destination_amount is 180000, not 2, because
the overridden save method of the Transaction model overwrites
destination_amount with base_amount * rate = 600 * 300 before the row
is stored, contradicting the declared meaning of the field (the
amount received). -/
theorem trade_buy_scenario_eval :
    ((simulate_and_execute_buy_sell oracleT dbT "42" "ethereum" (.num 2) "buy").1.success = true)
    ∧ (simulate_and_execute_buy_sell oracleT dbT "42" "ethereum" (.num 2) "buy").1.status = "completed"
    ∧ (simulate_and_execute_buy_sell oracleT dbT "42" "ethereum" (.num 2) "buy").2.wallets
        = [("42", [("usd", 400), ("ethereum", 2)])]
    ∧ (simulate_and_execute_buy_sell oracleT dbT "42" "ethereum" (.num 2) "buy").2.ledger
        = [⟨"42", 0,
            { base_currency := "usd", base_amount := 600,
              destination_currency := "ethereum", destination_amount := 180000,
              rate := 300, swap_origin_usd_rate := none,
              swap_destination_usd_rate := none,
              transaction_type := "buy", status := "completed" }⟩] := by
  refine ⟨?_, ?_, ?_, ?_⟩ <;>
    norm_num +decide [simulate_and_execute_buy_sell, PyVal.truthy, pyLower,
      get_coin_price, truthyPrice, ensureWallet, alookup, bget, bset, alset,
      commit, Txn.save, oracleT, dbT]

end CryptoSim

namespace CryptoSim

theorem swap_success_record (oracle : PriceOracle) (db : DB)
    (uid o d : String) (a : ℚ) (r : TransactionResult) (db2 : DB)
    (heq : simulate_and_execute_swap oracle db uid o d (.num a) = (r, db2))
    (hs : r.success = true) :
    ∃ po pd, truthyPrice (get_coin_price oracle o) = some po
      ∧ truthyPrice (get_coin_price oracle d) = some pd
      ∧ 0 < a
      ∧ r.transaction_record = some (Txn.save
          { base_currency := o, base_amount := a, destination_currency := d,
            destination_amount := a * po / pd, rate := a * po / pd / a,
            swap_origin_usd_rate := some po,
            swap_destination_usd_rate := some pd,
            transaction_type := "swap", status := "completed" }) := by
  unfold simulate_and_execute_swap at heq
  split at heq
  · cases heq
    simp at hs
  · simp only [] at heq
    split at heq
    · cases heq
      simp at hs
    · rename_i hq
      split at heq
      · cases heq
        simp at hs
      · split at heq
        · cases heq
          simp at hs
        · split at heq
          · cases heq
            simp at hs
          · split at heq
            · rename_i po pd hpo hpd
              split at heq
              · split at heq
                · cases heq
                  simp at hs
                · cases heq
                  exact ⟨po, pd, hpo, hpd, lt_of_not_le hq, rfl⟩
              · cases heq
                simp at hs
            · cases heq
              simp at hs

/-- C4: For every successful swap of a units of currency X for
currency Y under oracle USD prices px for X and py for Y (both
positive), the transaction record carries
destination_amount = a * px / py exactly (in the exact decimal
arithmetic modelled by rationals) and rate = destination_amount / a.
The overridden Transaction save method rewrites destination_amount to
base_amount * rate, which for a swap equals the same value, so the
stored row still satisfies both equations. -/
theorem swap_conversion_exact (oracle : PriceOracle) (db : DB)
    (uid o d : String) (a px py : ℚ)
    (ho : oracle o = some px) (hd : oracle d = some py)
    (hpx : 0 < px) (hpy : 0 < py)
    (hs : (simulate_and_execute_swap oracle db uid o d (.num a)).1.success = true) :
    ∃ t, (simulate_and_execute_swap oracle db uid o d (.num a)).1.transaction_record
        = some t
      ∧ t.destination_amount = a * px / py
      ∧ t.rate = t.destination_amount / a := by
  obtain ⟨po, pd, hpo, hpd, ha, hrec⟩ :=
    swap_success_record oracle db uid o d a _ _ rfl hs
  have hpo2 : oracle o = some po := truthyPrice_eq _ _ hpo
  have hpd2 : oracle d = some pd := truthyPrice_eq _ _ hpd
  have hpox : po = px := Option.some.inj (hpo2.symm.trans ho)
  have hpdy : pd = py := Option.some.inj (hpd2.symm.trans hd)
  subst hpox hpdy
  have ha0 : a ≠ 0 := ne_of_gt ha
  have hdest : (0:ℚ) < a * po / pd := div_pos (mul_pos ha hpx) hpy
  have hrate : a * po / pd / a ≠ 0 := ne_of_gt (div_pos hdest ha)
  refine ⟨_, hrec, ?_, ?_⟩
  · simp only [Txn.save, if_pos (And.intro ha0 hrate)]
    field_simp
    ring
  · simp only [Txn.save, if_pos (And.intro ha0 hrate)]
    field_simp
    ring

/-- A concrete state for swap witnesses: user 42 holds 1 bitcoin. -/
def dbS : DB := { dbT with wallets := [("42", [("bitcoin", 1)])] }

/-- Witness for C4: swapping 1 bitcoin (price 60000) for ethereum
(price 300) succeeds and the record satisfies both conversion
equations. -/
theorem swap_conversion_exact_witness :
    oracleT "bitcoin" = some 60000 ∧ oracleT "ethereum" = some 300 ∧
    (0:ℚ) < 60000 ∧ (0:ℚ) < 300 ∧
    (simulate_and_execute_swap oracleT dbS "42" "bitcoin" "ethereum"
      (.num 1)).1.success = true ∧
    ∃ t, (simulate_and_execute_swap oracleT dbS "42" "bitcoin" "ethereum"
        (.num 1)).1.transaction_record = some t
      ∧ t.destination_amount = 1 * 60000 / 300
      ∧ t.rate = t.destination_amount / 1 := by
  have hs : (simulate_and_execute_swap oracleT dbS "42" "bitcoin" "ethereum"
      (.num 1)).1.success = true := by
    norm_num +decide [simulate_and_execute_swap, PyVal.truthy, get_coin_price,
      truthyPrice, ensureWallet, alookup, bget, bset, alset, commit, Txn.save,
      oracleT, dbT, dbS]
  exact ⟨by decide, by decide, by norm_num, by norm_num, hs,
    swap_conversion_exact oracleT dbS "42" "bitcoin" "ethereum" 1 60000 300
      (by decide) (by decide) (by norm_num) (by norm_num) hs⟩

end CryptoSim

namespace CryptoSim

/-- Counterexample for C5: dogecoin is present in the catalog with
is_active false, yet a buy of dogecoin succeeds with status completed
instead of failing with unsupported_currency, because the source looks
the coin up with Coin.objects.get(id=...) and never filters on
is_active (the is_active filter appears only in the swap path). -/
theorem trade_inactive_coin_not_rejected :
    alookup dbT.coins "dogecoin" = some false
    ∧ (simulate_and_execute_buy_sell oracleT dbT "42" "dogecoin" (.num 1) "buy").1.status
        = "completed"
    ∧ (simulate_and_execute_buy_sell oracleT dbT "42" "dogecoin" (.num 1) "buy").1.success
        = true := by
  refine ⟨by decide, ?_, ?_⟩ <;>
    norm_num +decide [simulate_and_execute_buy_sell, PyVal.truthy, pyLower,
      get_coin_price, truthyPrice, ensureWallet, alookup, bget, bset, alset,
      commit, Txn.save, oracleT, dbT]

/-- C5 as amended: for every Trade call that passes the argument and
side validation, if the lowercased currencyID is absent from the
CurrencyCatalog altogether the call fails with unsupported_currency
before any price lookup or state change (the state, returned
unchanged, includes the oracle never being consulted); a currencyID
that is present but inactive is not rejected. -/
theorem trade_unknown_coin_unsupported (oracle : PriceOracle) (db : DB)
    (uid cid : String) (a : ℚ) (tt : String)
    (hu : uid ≠ "") (hc : cid ≠ "") (ha : 0 < a) (htt : tt ≠ "")
    (hside : pyLower tt = "buy" ∨ pyLower tt = "sell")
    (hmiss : alookup db.coins (pyLower cid) = none) :
    simulate_and_execute_buy_sell oracle db uid cid (.num a) tt
      = ({ success := false, transaction_record := none,
           status := "unsupported_currency",
           error_type := some "ValidationError" }, db) := by
  have hcond : ¬(uid = "" ∨ cid = "" ∨ PyVal.truthy (.num a) = false ∨ tt = "") := by
    simp [PyVal.truthy, hu, hc, htt]
    exact ne_of_gt ha
  unfold simulate_and_execute_buy_sell
  rw [if_neg hcond]
  simp only []
  rw [if_neg (not_le.mpr ha), if_neg (not_not_intro hside), hmiss]

/-- Witness for the amended C5: litecoin is not in the catalog and a
buy of litecoin returns unsupported_currency with the state
unchanged. -/
theorem trade_unknown_coin_unsupported_witness :
    alookup dbT.coins (pyLower "litecoin") = none ∧
    simulate_and_execute_buy_sell oracleT dbT "42" "litecoin" (.num 5) "buy"
      = ({ success := false, transaction_record := none,
           status := "unsupported_currency",
           error_type := some "ValidationError" }, dbT) :=
  ⟨by decide, trade_unknown_coin_unsupported oracleT dbT "42" "litecoin" 5 "buy"
    (by decide) (by decide) (by norm_num) (by decide)
    (Or.inl (by decide)) (by decide)⟩

end CryptoSim

namespace CryptoSim

/-- C6: the deposit contract.  For an existing user and a positive
numeric amount, Deposit increments exactly the usd balance of that
user by the amount, creates no Transaction row, leaves every other
balance untouched, and reports success carrying the final USD balance;
a non-numeric or non-positive amount yields invalid_input with the
state unchanged; an amount that passes validation but a missing user
yields not_found with the state unchanged. -/
theorem deposit_usd_contract (db : DB) (uid : String) :
    (∀ q : ℚ, uid ∈ db.users → uid ≠ "" → 0 < q →
      (deposit_usd db uid (.num q)).1.success = true
      ∧ (deposit_usd db uid (.num q)).1.status = "deposit_successful"
      ∧ (deposit_usd db uid (.num q)).1.transaction_record = none
      ∧ (deposit_usd db uid (.num q)).2.ledger = db.ledger
      ∧ walletBal (deposit_usd db uid (.num q)).2 uid "usd"
          = walletBal db uid "usd" + q
      ∧ (∀ u c, ¬(u = uid ∧ c = "usd") →
          walletBal (deposit_usd db uid (.num q)).2 u c = walletBal db u c)
      ∧ (deposit_usd db uid (.num q)).1.final_balances
          = some [("USD", BVal.strv (walletBal db uid "usd" + q))])
    ∧ (∀ a : PyVal, (a.isNumber = false ∨ ∃ q, a = PyVal.num q ∧ q ≤ 0) →
        deposit_usd db uid a
          = ({ success := false, transaction_record := none,
               status := "invalid_input",
               error_type := some "ValidationError" }, db))
    ∧ (∀ q : ℚ, uid ∉ db.users → uid ≠ "" → 0 < q →
        deposit_usd db uid (.num q)
          = ({ success := false, transaction_record := none,
               status := "not_found",
               error_type := some "DoesNotExistError" }, db)) := by
  refine ⟨?_, ?_, ?_⟩
  · intro q hmem hu hq
    have hcond : ¬(uid = "" ∨ PyVal.truthy (.num q) = false) := by
      simp [PyVal.truthy, hu]
      exact ne_of_gt hq
    unfold deposit_usd
    rw [if_neg hcond]
    simp only []
    rw [if_neg (not_le.mpr hq), if_pos hmem]
    refine ⟨rfl, rfl, rfl, ensureWallet_ledger db uid, ?_, ?_, ?_⟩
    · show wbal (alset (ensureWallet db uid).2.wallets uid
        (bset (ensureWallet db uid).1 "usd"
          (bget (ensureWallet db uid).1 "usd" + q))) uid "usd" = _
      rw [wbal_alset, if_pos rfl, bget_bset, if_pos rfl, ensureWallet_fst]
    · intro u c hne
      by_cases hu2 : u = uid
      · subst hu2
        have hc2 : c ≠ "usd" := fun hc2 => hne ⟨rfl, hc2⟩
        show wbal (alset (ensureWallet db u).2.wallets u
          (bset (ensureWallet db u).1 "usd"
            (bget (ensureWallet db u).1 "usd" + q))) u c = _
        rw [wbal_alset, if_pos rfl, bget_bset, if_neg hc2, ensureWallet_fst]
      · show wbal (alset (ensureWallet db uid).2.wallets uid
          (bset (ensureWallet db uid).1 "usd"
            (bget (ensureWallet db uid).1 "usd" + q))) u c = _
        rw [wbal_alset, if_neg hu2]
        exact ensureWallet_wbal db uid u c
    · show some [("USD", BVal.strv (bget (ensureWallet db uid).1 "usd" + q))] = _
      rw [ensureWallet_fst]
  · intro a ha
    cases a with
    | num q =>
      have hq : q ≤ 0 := by
        rcases ha with h | ⟨q2, hq2, hle⟩
        · simp [PyVal.isNumber] at h
        · cases hq2
          exact hle
      unfold deposit_usd
      by_cases hcond : (uid = "" ∨ PyVal.truthy (.num q) = false)
      · rw [if_pos hcond]
      · rw [if_neg hcond]
        simp only []
        rw [if_pos hq]
    | strv s =>
      unfold deposit_usd
      by_cases hcond : (uid = "" ∨ PyVal.truthy (.strv s) = false)
      · rw [if_pos hcond]
      · rw [if_neg hcond]
  · intro q hnmem hu hq
    have hcond : ¬(uid = "" ∨ PyVal.truthy (.num q) = false) := by
      simp [PyVal.truthy, hu]
      exact ne_of_gt hq
    unfold deposit_usd
    rw [if_neg hcond]
    simp only []
    rw [if_neg (not_le.mpr hq), if_neg hnmem]

/-- Witness for C6: all three parts at concrete inputs. -/
theorem deposit_usd_contract_witness :
    ("42" ∈ dbT.users) ∧ (0:ℚ) < 500 ∧
    (deposit_usd dbT "42" (.num 500)).1.success = true ∧
    (deposit_usd dbT "42" (.num 500)).1.transaction_record = none ∧
    walletBal (deposit_usd dbT "42" (.num 500)).2 "42" "usd"
      = walletBal dbT "42" "usd" + 500 ∧
    deposit_usd dbT "42" (.strv "abc")
      = ({ success := false, transaction_record := none,
           status := "invalid_input",
           error_type := some "ValidationError" }, dbT) ∧
    deposit_usd dbT "77" (.num 500)
      = ({ success := false, transaction_record := none,
           status := "not_found",
           error_type := some "DoesNotExistError" }, dbT) := by
  have h1 := (deposit_usd_contract dbT "42").1 500 (by decide) (by decide)
    (by norm_num)
  have h2 := (deposit_usd_contract dbT "42").2.1 (.strv "abc")
    (Or.inl rfl)
  have h3 := (deposit_usd_contract dbT "77").2.2 500 (by decide) (by decide)
    (by norm_num)
  exact ⟨by decide, by norm_num, h1.1, h1.2.2.1, h1.2.2.2.2.1, h2, h3⟩

end CryptoSim

namespace CryptoSim

/-- C7: evaluation of the code at the failing input.  For every
existing user, a ListTransactions call that supplies a currency filter
raises FieldError instead of filtering, because the source filters on
Q(base_currency=currency) | Q(to_currency=currency) and the
Transaction model has no field to_currency (its field is
destination_currency).  The type filter, newest-first ordering and
offset and limit slicing of the source are modelled faithfully and are
never reached on this path. -/
theorem transactions_currency_filter_raises (db : DB) (uid : String)
    (tt : Option String) (c : String) (lim off : Option Nat)
    (hmem : uid ∈ db.users) :
    get_user_transactions db uid tt (some c) lim off
      = Except.error PyErr.fieldError := by
  unfold get_user_transactions
  rw [if_pos hmem]

/-- Witness for C7: a concrete existing user with a currency filter. -/
theorem transactions_currency_filter_raises_witness :
    ("42" ∈ dbT.users) ∧
    get_user_transactions dbT "42" none (some "usd") none none
      = Except.error PyErr.fieldError :=
  ⟨by decide,
   transactions_currency_filter_raises dbT "42" none "usd" none none (by decide)⟩

/-- C8: for every user id and currency id that pass the presence
check (both nonempty) and every positive numeric amount, a swap of a
currency for itself returns invalid_pair and the state is returned
unchanged, with no transaction record. -/
theorem self_swap_invalid_pair (oracle : PriceOracle) (db : DB)
    (uid c : String) (q : ℚ) (hu : uid ≠ "") (hc : c ≠ "") (hq : 0 < q) :
    simulate_and_execute_swap oracle db uid c c (.num q)
      = ({ success := false, transaction_record := none,
           status := "invalid_pair",
           error_type := some "ValidationError" }, db) := by
  have hcond : ¬(uid = "" ∨ c = "" ∨ c = "" ∨ PyVal.truthy (.num q) = false) := by
    simp [PyVal.truthy, hu, hc]
    exact ne_of_gt hq
  unfold simulate_and_execute_swap
  rw [if_neg hcond]
  simp only []
  rw [if_neg (not_le.mpr hq)]
  simp

/-- Witness for C8: the concrete self swap of the spec scenario. -/
theorem self_swap_invalid_pair_witness :
    simulate_and_execute_swap oracleT dbT "42" "bitcoin" "bitcoin" (.num 1)
      = ({ success := false, transaction_record := none,
           status := "invalid_pair",
           error_type := some "ValidationError" }, dbT) :=
  self_swap_invalid_pair oracleT dbT "42" "bitcoin" 1 (by decide) (by decide)
    (by norm_num)

theorem ensureWallet_idem (db : DB) (uid : String) :
    ensureWallet (ensureWallet db uid).2 uid
      = ((ensureWallet db uid).1, (ensureWallet db uid).2) := by
  unfold ensureWallet
  cases h : alookup db.wallets uid with
  | some b => simp [h]
  | none =>
    simp only [h]
    have h2 : alookup (alset db.wallets uid []) uid = some [] := by
      rw [alookup_alset, if_pos rfl]
    simp [h2]

/-- C9: for an existing user, GetOrCreateWallet succeeds and calling
it again returns the same wallet and the same state (idempotence), and
when the user had no wallet row the returned wallet has an empty
balance; for a missing user it fails Http404 and the state is returned
unchanged (nothing is created). -/
theorem get_or_create_wallet_contract (db : DB) (uid : String) :
    (uid ∈ db.users →
      ∃ b db1, get_user_wallet db uid = (Except.ok b, db1)
        ∧ get_user_wallet db1 uid = (Except.ok b, db1)
        ∧ (alookup db.wallets uid = none → b = []))
    ∧ (uid ∉ db.users →
        get_user_wallet db uid = (Except.error PyErr.http404, db)) := by
  constructor
  · intro hmem
    refine ⟨(ensureWallet db uid).1, (ensureWallet db uid).2, ?_, ?_, ?_⟩
    · unfold get_user_wallet
      rw [if_pos hmem]
    · unfold get_user_wallet
      have hmem2 : uid ∈ (ensureWallet db uid).2.users := by
        rw [ensureWallet_users]
        exact hmem
      rw [if_pos hmem2, ensureWallet_idem]
    · intro hnone
      unfold ensureWallet
      rw [hnone]
  · intro hnmem
    unfold get_user_wallet
    rw [if_neg hnmem]

/-- A concrete state whose only user has no wallet row yet. -/
def dbN : DB := { dbT with wallets := [] }

/-- Witness for C9: a concrete user without a wallet row, and a
concrete missing user. -/
theorem get_or_create_wallet_contract_witness :
    (∃ b db1, get_user_wallet dbN "42" = (Except.ok b, db1)
      ∧ get_user_wallet db1 "42" = (Except.ok b, db1)
      ∧ b = [])
    ∧ get_user_wallet dbN "77" = (Except.error PyErr.http404, dbN) := by
  obtain ⟨b, db1, e1, e2, he⟩ :=
    (get_or_create_wallet_contract dbN "42").1 (by decide)
  exact ⟨⟨b, db1, e1, e2, he (by decide)⟩,
    (get_or_create_wallet_contract dbN "77").2 (by decide)⟩

end CryptoSim

namespace CryptoSim

theorem alookup_mem {α : Type} (l : List (String × α)) (k : String) (v : α)
    (h : alookup l k = some v) : (k, v) ∈ l := by
  induction l with
  | nil => simp [alookup] at h
  | cons p rest ih =>
    obtain ⟨pk, pv⟩ := p
    simp only [alookup] at h
    by_cases h2 : k = pk
    · subst h2
      rw [if_pos rfl] at h
      cases h
      exact List.mem_cons_self _ _
    · rw [if_neg h2] at h
      exact List.mem_cons_of_mem _ (ih h)

theorem deposit_success_shape (db : DB) (uid : String) (a : PyVal)
    (r : TransactionResult) (db2 : DB)
    (heq : deposit_usd db uid a = (r, db2)) (hs : r.success = true) :
    r.status = "deposit_successful" ∧ r.transaction_record = none ∧
    ∃ q, r.final_balances = some [("USD", BVal.strv q)] := by
  unfold deposit_usd at heq
  split at heq
  · cases heq
    simp at hs
  · cases a with
    | strv s =>
      cases heq
      simp at hs
    | num q =>
      simp only [] at heq
      split at heq
      · cases heq
        simp at hs
      · split at heq
        · cases heq
          exact ⟨rfl, rfl, _, rfl⟩
        · cases heq
          simp at hs

theorem buy_sell_success_shape (oracle : PriceOracle) (db : DB)
    (uid cid : String) (a : PyVal) (tt : String)
    (r : TransactionResult) (db2 : DB)
    (heq : simulate_and_execute_buy_sell oracle db uid cid a tt = (r, db2))
    (hs : r.success = true) :
    ∃ qu qc, r.final_balances
      = some [("usd", BVal.dec qu), (pyLower cid, BVal.dec qc)] := by
  unfold simulate_and_execute_buy_sell at heq
  split at heq
  · cases heq
    simp at hs
  · cases a with
    | strv s =>
      cases heq
      simp at hs
    | num q =>
      simp only [] at heq
      split at heq
      · cases heq
        simp at hs
      · split at heq
        · cases heq
          simp at hs
        · split at heq
          · cases heq
            simp at hs
          · split at heq
            · cases heq
              simp at hs
            · split at heq
              · split at heq
                · split at heq
                  · cases heq
                    simp at hs
                  · cases heq
                    exact ⟨_, _, rfl⟩
                · split at heq
                  · cases heq
                    simp at hs
                  · cases heq
                    exact ⟨_, _, rfl⟩
              · cases heq
                simp at hs

theorem swap_success_shape (oracle : PriceOracle) (db : DB)
    (uid o d : String) (a : PyVal)
    (r : TransactionResult) (db2 : DB)
    (heq : simulate_and_execute_swap oracle db uid o d a = (r, db2))
    (hs : r.success = true) :
    alookup db.coins o = some true ∧ alookup db.coins d = some true ∧
    ∃ q1 q2, r.final_balances
      = some [(o, BVal.strv q1), (d, BVal.strv q2)] := by
  unfold simulate_and_execute_swap at heq
  split at heq
  · cases heq
    simp at hs
  · cases a with
    | strv s =>
      cases heq
      simp at hs
    | num q =>
      simp only [] at heq
      split at heq
      · cases heq
        simp at hs
      · split at heq
        · cases heq
          simp at hs
        · split at heq
          · cases heq
            simp at hs
          · rename_i hco
            split at heq
            · cases heq
              simp at hs
            · rename_i hcd
              split at heq
              · split at heq
                · split at heq
                  · cases heq
                    simp at hs
                  · cases heq
                    exact ⟨not_not.mp hco, not_not.mp hcd, _, _, rfl⟩
                · cases heq
                  simp at hs
              · cases heq
                simp at hs

/-- C10: shape of the success results.  A successful deposit reports
status deposit_successful (a value outside the completed taxonomy of
the other operations), carries no transaction record, and its
final_balances map has the single uppercase key USD bound to the
string form of the new balance; a successful Trade reports balances
under the lowercase key usd and the lowercased currency id, as Decimal
values; a successful Swap reports balances under the origin and
destination ids as string values, and when every catalog id is
lowercase those keys are lowercase as well. -/
theorem result_shapes (oracle : PriceOracle) (db : DB) :
    (∀ uid a, (deposit_usd db uid a).1.success = true →
      (deposit_usd db uid a).1.status = "deposit_successful"
      ∧ (deposit_usd db uid a).1.transaction_record = none
      ∧ ∃ q, (deposit_usd db uid a).1.final_balances
          = some [("USD", BVal.strv q)])
    ∧ (∀ uid cid a tt,
        (simulate_and_execute_buy_sell oracle db uid cid a tt).1.success = true →
        ∃ qu qc, (simulate_and_execute_buy_sell oracle db uid cid a tt).1.final_balances
          = some [("usd", BVal.dec qu), (pyLower cid, BVal.dec qc)])
    ∧ (∀ uid o d a, (∀ c b, (c, b) ∈ db.coins → pyLower c = c) →
        (simulate_and_execute_swap oracle db uid o d a).1.success = true →
        pyLower o = o ∧ pyLower d = d ∧
        ∃ q1 q2, (simulate_and_execute_swap oracle db uid o d a).1.final_balances
          = some [(o, BVal.strv q1), (d, BVal.strv q2)]) := by
  refine ⟨?_, ?_, ?_⟩
  · intro uid a hs
    exact deposit_success_shape db uid a _ _ rfl hs
  · intro uid cid a tt hs
    exact buy_sell_success_shape oracle db uid cid a tt _ _ rfl hs
  · intro uid o d a hlc hs
    obtain ⟨hco, hcd, hfb⟩ := swap_success_shape oracle db uid o d a _ _ rfl hs
    exact ⟨hlc o true (alookup_mem _ _ _ hco),
      hlc d true (alookup_mem _ _ _ hcd), hfb⟩

/-- Witness for C10: concrete successful deposit, buy and swap. -/
theorem result_shapes_witness :
    ((deposit_usd dbT "42" (.num 500)).1.success = true
      ∧ (deposit_usd dbT "42" (.num 500)).1.status = "deposit_successful"
      ∧ (deposit_usd dbT "42" (.num 500)).1.transaction_record = none
      ∧ ∃ q, (deposit_usd dbT "42" (.num 500)).1.final_balances
          = some [("USD", BVal.strv q)])
    ∧ ((simulate_and_execute_buy_sell oracleT dbT "42" "ethereum" (.num 2) "buy").1.success = true
      ∧ ∃ qu qc,
        (simulate_and_execute_buy_sell oracleT dbT "42" "ethereum" (.num 2) "buy").1.final_balances
          = some [("usd", BVal.dec qu), (pyLower "ethereum", BVal.dec qc)])
    ∧ ((simulate_and_execute_swap oracleT dbS "42" "bitcoin" "ethereum" (.num 1)).1.success = true
      ∧ pyLower "bitcoin" = "bitcoin" ∧ pyLower "ethereum" = "ethereum"
      ∧ ∃ q1 q2,
        (simulate_and_execute_swap oracleT dbS "42" "bitcoin" "ethereum" (.num 1)).1.final_balances
          = some [("bitcoin", BVal.strv q1), ("ethereum", BVal.strv q2)]) := by
  have hd : (deposit_usd dbT "42" (.num 500)).1.success = true := by
    norm_num +decide [deposit_usd, PyVal.truthy, ensureWallet, alookup, bget,
      bset, alset, dbT]
  have hb : (simulate_and_execute_buy_sell oracleT dbT "42" "ethereum"
      (.num 2) "buy").1.success = true := by
    norm_num +decide [simulate_and_execute_buy_sell, PyVal.truthy, pyLower,
      get_coin_price, truthyPrice, ensureWallet, alookup, bget, bset, alset,
      commit, Txn.save, oracleT, dbT]
  have hw : (simulate_and_execute_swap oracleT dbS "42" "bitcoin" "ethereum"
      (.num 1)).1.success = true := by
    norm_num +decide [simulate_and_execute_swap, PyVal.truthy, get_coin_price,
      truthyPrice, ensureWallet, alookup, bget, bset, alset, commit, Txn.save,
      oracleT, dbT, dbS]
  have h1 := (result_shapes oracleT dbT).1 "42" (.num 500) hd
  have h2 := (result_shapes oracleT dbT).2.1 "42" "ethereum" (.num 2) "buy" hb
  have hlc : ∀ c b, (c, b) ∈ dbS.coins → pyLower c = c := by
    intro c b hmem
    simp [dbS, dbT] at hmem
    rcases hmem with ⟨hc, _⟩ | ⟨hc, _⟩ | ⟨hc, _⟩ <;> subst hc <;> decide
  have h3 := (result_shapes oracleT dbS).2.2 "42" "bitcoin" "ethereum" (.num 1)
    hlc hw
  exact ⟨⟨hd, h1⟩, ⟨hb, h2⟩, ⟨hw, h3.1, h3.2.1, h3.2.2⟩⟩

end CryptoSim
